import Mathlib

/-!
Verification of the metric-aware navigation core of Manifold-Drift
(`src/App.jsx`), shallowly embedded over the reals.

The embedding mirrors the source structure:
* chart math: `stereoToSphere`, `sphereLambda`, `saddleEmbed`, `saddleLambda`;
* the per-frame stepper of the `Player` component, split into its flat
  (Euclidean) branch `flatStep` and curved branch `curvedStep`;
* the geodesic sampler `makeGreatCircle` of `GeodesicTracers`;
* the app-level mode/manifold state machine (`mountApp`, `setMode`,
  `setManifold`, `appFrame`).

JavaScript numbers are modelled as real numbers.  `THREE.Vector*.normalize`
divides by `length || 1`; over the reals a vector of length `0` is the zero
vector, so plain division by the square root of the squared length (with
Lean's `x / 0 = 0` convention) agrees with it on every input.
-/

namespace ManifoldDrift

noncomputable section

/-- 2D vector (chart coordinates, `THREE.Vector2`). -/
@[ext] structure Vec2 where
  x : ℝ
  y : ℝ

/-- 3D vector (`THREE.Vector3`). -/
@[ext] structure Vec3 where
  x : ℝ
  y : ℝ
  z : ℝ

def lengthSq2 (v : Vec2) : ℝ := v.x * v.x + v.y * v.y

def normalize2 (v : Vec2) : Vec2 :=
  ⟨v.x / Real.sqrt (lengthSq2 v), v.y / Real.sqrt (lengthSq2 v)⟩

def scale2 (a : ℝ) (v : Vec2) : Vec2 := ⟨a * v.x, a * v.y⟩

def lengthSq3 (v : Vec3) : ℝ := v.x * v.x + v.y * v.y + v.z * v.z

def normalize3 (v : Vec3) : Vec3 :=
  ⟨v.x / Real.sqrt (lengthSq3 v), v.y / Real.sqrt (lengthSq3 v),
   v.z / Real.sqrt (lengthSq3 v)⟩

def smul3 (a : ℝ) (v : Vec3) : Vec3 := ⟨a * v.x, a * v.y, a * v.z⟩

def add3 (a b : Vec3) : Vec3 := ⟨a.x + b.x, a.y + b.y, a.z + b.z⟩

def sub3 (a b : Vec3) : Vec3 := ⟨a.x - b.x, a.y - b.y, a.z - b.z⟩

def neg3 (a : Vec3) : Vec3 := ⟨-a.x, -a.y, -a.z⟩

def dot3 (a b : Vec3) : ℝ := a.x * b.x + a.y * b.y + a.z * b.z

/-- `THREE.Vector3.cross`. -/
def cross3 (a b : Vec3) : Vec3 :=
  ⟨a.y * b.z - a.z * b.y, a.z * b.x - a.x * b.z, a.x * b.y - a.y * b.x⟩

/-- `Math.atan2 y x` (standard two-argument arctangent). -/
def atan2 (y x : ℝ) : ℝ :=
  if 0 < x then Real.arctan (y / x)
  else if x < 0 ∧ 0 ≤ y then Real.arctan (y / x) + Real.pi
  else if x < 0 ∧ y < 0 then Real.arctan (y / x) - Real.pi
  else if x = 0 ∧ 0 < y then Real.pi / 2
  else if x = 0 ∧ y < 0 then -(Real.pi / 2)
  else 0

/-- `stereoToSphere` (src/App.jsx lines 10-15): stereographic chart to the
unit sphere. -/
def stereoToSphere (c : Vec2) : Vec3 :=
  let r2 := c.x * c.x + c.y * c.y
  let denom := r2 + 1
  let s := 2 / denom
  ⟨s * c.x, s * c.y, (r2 - 1) / denom⟩

/-- `sphereLambda` (src/App.jsx lines 18-21): conformal metric factor of the
stereographic chart. -/
def sphereLambda (c : Vec2) : ℝ :=
  let r2 := c.x * c.x + c.y * c.y
  2 / (1 + r2)

/-- `saddleEmbed` (src/App.jsx lines 24-26); the source default `k = 0.15`
is written explicitly at every call site. -/
def saddleEmbed (c : Vec2) (k : ℝ) : Vec3 :=
  ⟨c.x, c.y, (c.x * c.x - c.y * c.y) * k⟩

/-- `saddleLambda` (src/App.jsx lines 29-32). -/
def saddleLambda (c : Vec2) (k : ℝ) : ℝ :=
  1 / Real.sqrt (1 + 4 * k * k * (c.x * c.x + c.y * c.y))

/- ### Shared norm lemmas -/

lemma lengthSq2_nonneg (v : Vec2) : 0 ≤ lengthSq2 v :=
  add_nonneg (mul_self_nonneg v.x) (mul_self_nonneg v.y)

lemma lengthSq3_nonneg (v : Vec3) : 0 ≤ lengthSq3 v :=
  add_nonneg (add_nonneg (mul_self_nonneg v.x) (mul_self_nonneg v.y))
    (mul_self_nonneg v.z)

lemma normalize2_lengthSq (v : Vec2) (h : lengthSq2 v ≠ 0) :
    lengthSq2 (normalize2 v) = 1 := by
  have h0 : 0 ≤ lengthSq2 v := lengthSq2_nonneg v
  have hs : Real.sqrt (lengthSq2 v) * Real.sqrt (lengthSq2 v) = lengthSq2 v :=
    Real.mul_self_sqrt h0
  show v.x / Real.sqrt (lengthSq2 v) * (v.x / Real.sqrt (lengthSq2 v)) +
      v.y / Real.sqrt (lengthSq2 v) * (v.y / Real.sqrt (lengthSq2 v)) = 1
  rw [div_mul_div_comm, div_mul_div_comm, div_add_div_same, hs]
  exact div_self h

lemma normalize3_lengthSq (v : Vec3) (h : lengthSq3 v ≠ 0) :
    lengthSq3 (normalize3 v) = 1 := by
  have h0 : 0 ≤ lengthSq3 v := lengthSq3_nonneg v
  have hs : Real.sqrt (lengthSq3 v) * Real.sqrt (lengthSq3 v) = lengthSq3 v :=
    Real.mul_self_sqrt h0
  show v.x / Real.sqrt (lengthSq3 v) * (v.x / Real.sqrt (lengthSq3 v)) +
      v.y / Real.sqrt (lengthSq3 v) * (v.y / Real.sqrt (lengthSq3 v)) +
      v.z / Real.sqrt (lengthSq3 v) * (v.z / Real.sqrt (lengthSq3 v)) = 1
  rw [div_mul_div_comm, div_mul_div_comm, div_mul_div_comm,
    div_add_div_same, div_add_div_same, hs]
  exact div_self h

/- ### Player stepper (src/App.jsx lines 119-246) -/

/-- Mutable per-player state of the `Player` component: `ref.current.position`,
`vel.current`, `chart.current`, `onGround.current`. -/
structure PlayerState where
  pos : Vec3
  vel : Vec3
  chart : Vec2
  onGround : Bool

/-- The externally visible result of one step (`onPose` payload). -/
structure Pose where
  pos : Vec3
  yaw : ℝ

/-- Pressed-key snapshot sampled by the stepper. -/
structure Input where
  keyW : Bool
  keyS : Bool
  keyD : Bool
  keyA : Bool
  space : Bool

def speed : ℝ := 2.8

def jumpSpeed : ℝ := 4

def gravity : ℝ := -9.8

/-- `(keys[pos] ? 1 : 0) - (keys[neg] ? 1 : 0)`. -/
def axisVal (p n : Bool) : ℝ := (if p then 1 else 0) - (if n then 1 else 0)

def forwardOf (i : Input) : ℝ := axisVal i.keyW i.keyS

def strafeOf (i : Input) : ℝ := axisVal i.keyD i.keyA

/-- Curved-mode desired-direction vector `new THREE.Vector2(strafe, forward)`. -/
def wantOf (i : Input) : Vec2 := ⟨strafeOf i, forwardOf i⟩

/-- Flat-mode horizontal camera direction: world direction with `y` zeroed
and normalized. -/
def flatDir (camDir : Vec3) : Vec3 := normalize3 ⟨camDir.x, 0, camDir.z⟩

/-- `right = cross(dir, (0,1,0)).negate()`. -/
def rightOf (dir : Vec3) : Vec3 := neg3 (cross3 dir ⟨0, 1, 0⟩)

/-- Flat-mode movement vector: input combination of forward/right, normalized
and scaled by `speed` when non-zero. -/
def flatMove (camDir : Vec3) (i : Input) : Vec3 :=
  let dir := flatDir camDir
  let move := add3 (smul3 (forwardOf i) dir) (smul3 (strafeOf i) (rightOf dir))
  if lengthSq3 move > 0 then smul3 speed (normalize3 move) else move

/-- Flat-mode velocity update (horizontal from `flatMove`, gravity integration,
jump impulse) together with the post-jump grounded flag. -/
def flatVel (camDir : Vec3) (i : Input) (dt : ℝ) (st : PlayerState) :
    Vec3 × Bool :=
  let m := flatMove camDir i
  let v1 : Vec3 := ⟨m.x, st.vel.y + gravity * dt, m.z⟩
  if i.space && st.onGround then (⟨v1.x, jumpSpeed, v1.z⟩, false)
  else (v1, st.onGround)

/-- Position integration `pos += vel * dt` on all three axes. -/
def flatIntegrate (pos v : Vec3) (dt : ℝ) : Vec3 :=
  ⟨pos.x + v.x * dt, pos.y + v.y * dt, pos.z + v.z * dt⟩

/-- One flat-mode (`mode === 'euclid'`) step of the `Player` `useFrame`
callback (src/App.jsx lines 150-195), including the `dt` clamp of line 148. -/
def flatStep (camDir : Vec3) (i : Input) (dtRaw : ℝ) (st : PlayerState) :
    PlayerState × Pose :=
  let dt := min dtRaw (1 / 30)
  let v := (flatVel camDir i dt st).1
  let g := (flatVel camDir i dt st).2
  let p1 := flatIntegrate st.pos v dt
  let yaw := atan2 (flatDir camDir).x (flatDir camDir).z
  if p1.y < 1 then
    (⟨⟨p1.x, 1, p1.z⟩, ⟨v.x, 0, v.z⟩, st.chart, true⟩, ⟨⟨p1.x, 1, p1.z⟩, yaw⟩)
  else
    (⟨p1, v, st.chart, g⟩, ⟨p1, yaw⟩)

/-- Metric factor selection of the curved branch (src/App.jsx lines 204-206):
`lam = 1`, overridden for the known manifold tags. -/
def lamOf (manifold : String) (c : Vec2) : ℝ :=
  if manifold = "sphere" then sphereLambda c
  else if manifold = "saddle" then saddleLambda c 0.15
  else 1

/-- The 2D restriction of the `localToWorld` 3x3 matrix applied to
`(w.x, w.y, 1)` (src/App.jsx lines 215-221); the third row leaves the
extracted `(x, y)` components untouched. -/
def rotateByYaw (yaw : ℝ) (w : Vec2) : Vec2 :=
  ⟨Real.cos yaw * w.x - Real.sin yaw * w.y,
   Real.sin yaw * w.x + Real.cos yaw * w.y⟩

/-- Chart-space displacement `du` of one curved step (src/App.jsx
lines 208-227): zero for zero input, else the rotated normalized input scaled
by `(speed / max(lam, 1e-4)) * dt`. -/
def chartDisp (lam yaw : ℝ) (w : Vec2) (dt : ℝ) : Vec2 :=
  if lengthSq2 w > 0 then
    scale2 (speed / max lam 1e-4 * dt) (normalize2 (rotateByYaw yaw (normalize2 w)))
  else ⟨0, 0⟩

/-- Embedding selection (src/App.jsx lines 232-234): `p = [0,0,0]`, overridden
for the known manifold tags. -/
def embedOf (manifold : String) (c : Vec2) : Vec3 :=
  if manifold = "sphere" then stereoToSphere c
  else if manifold = "saddle" then saddleEmbed c 0.15
  else ⟨0, 0, 0⟩

/-- One curved-mode step of the `Player` `useFrame` callback (src/App.jsx
lines 196-245), including the `dt` clamp of line 148.  `vel` and `onGround`
are untouched by this branch. -/
def curvedStep (manifold : String) (camDir : Vec3) (i : Input) (dtRaw : ℝ)
    (st : PlayerState) : PlayerState × Pose :=
  let dt := min dtRaw (1 / 30)
  let yaw := atan2 camDir.x camDir.z
  let du := chartDisp (lamOf manifold st.chart) yaw (wantOf i) dt
  let c1 : Vec2 := ⟨st.chart.x + du.x, st.chart.y + du.y⟩
  let p := embedOf manifold c1
  (⟨p, st.vel, c1, st.onGround⟩, ⟨p, yaw⟩)

/-- Mode dispatch of the `useFrame` callback. -/
def playerStep (mode manifold : String) (camDir : Vec3) (i : Input)
    (dtRaw : ℝ) (st : PlayerState) : PlayerState × Pose :=
  if mode = "euclid" then flatStep camDir i dtRaw st
  else curvedStep manifold camDir i dtRaw st

/- ### App-level mode/manifold state (src/App.jsx lines 141-145, 363-373) -/

/-- App-level state: `mode`, `manifold`, the player's mutable refs, and the
`transitionTS` timestamp consumed by the portal effect. -/
structure AppState where
  mode : String
  manifold : String
  player : PlayerState
  transitionTS : ℝ

/-- Player state after the mount-only reset effect (src/App.jsx lines
141-145, with the initial `useRef` values of lines 122-127). -/
def initPlayer : PlayerState :=
  ⟨⟨0, 1.2, 4⟩, ⟨0, 0, 0⟩, ⟨0, 0⟩, true⟩

/-- Initial app state: `useState('euclid')`, `useState('sphere')`, the
mounted player, and the mount-time `transitionTS`. -/
def mountApp (t0 : ℝ) : AppState := ⟨"euclid", "sphere", initPlayer, t0⟩

/-- `setMode` click: the `useEffect` on `[mode, manifold]` refreshes
`transitionTS`; the player reset effect has an empty dependency list and does
not rerun, so the player state is carried over unchanged. -/
def setModeEv (m : String) (now : ℝ) (s : AppState) : AppState :=
  ⟨m, s.manifold, s.player, now⟩

/-- `setManifold` click; same effect structure as `setModeEv`. -/
def setManifoldEv (m : String) (now : ℝ) (s : AppState) : AppState :=
  ⟨s.mode, m, s.player, now⟩

/-- One rendered frame: run the player stepper under the current
mode/manifold. -/
def appFrame (camDir : Vec3) (i : Input) (dtRaw : ℝ) (s : AppState) :
    AppState × Pose :=
  let r := playerStep s.mode s.manifold camDir i dtRaw s.player
  (⟨s.mode, s.manifold, r.1, s.transitionTS⟩, r.2)

/- ### Geodesic sampler (src/App.jsx lines 84-107) -/

def gcN : ℕ := 220

def gcArc : ℝ := Real.pi * 1.3

def geodesicOffsets : List ℝ := [-0.6, 0, 0.6]

/-- `dirFlat = (sin yaw, 0, cos yaw)`. -/
def dirFlat (yaw : ℝ) : Vec3 := ⟨Real.sin yaw, 0, Real.cos yaw⟩

/-- Projection of `d` onto the tangent plane at `p0`:
`d - p0 * (d · p0)`. -/
def tangentProj (p0 d : Vec3) : Vec3 := sub3 d (smul3 (dot3 d p0) p0)

/-- Tangent direction `v` used by `makeGreatCircle`.  When the projection
degenerates the source substitutes a randomized direction
`randomDirection().sub(p0 * random()).normalize()`; the random draw is
modelled by the parameters `rnd` and `mu`. -/
def gcTangent (p0 : Vec3) (yaw : ℝ) (rnd : Vec3) (mu : ℝ) : Vec3 :=
  let t := tangentProj p0 (dirFlat yaw)
  if lengthSq3 t < 1e-6 then
    normalize3 (normalize3 (sub3 rnd (smul3 mu p0)))
  else normalize3 t

/-- The `i`-th sampled great-circle point:
`normalize(p0 * cos s + v * sin s)` with `s = (i/N - 0.5) * arc`. -/
def gcPoint (p0 v : Vec3) (i : ℕ) : Vec3 :=
  let s := ((i : ℝ) / (gcN : ℝ) - 0.5) * gcArc
  normalize3 (add3 (smul3 (Real.cos s) p0) (smul3 (Real.sin s) v))

/-- `makeGreatCircle(p0, yaw)`: the `N+1` sampled points of one arc. -/
def makeGreatCircle (p0 : Vec3) (yaw : ℝ) (rnd : Vec3) (mu : ℝ) : List Vec3 :=
  (List.range (gcN + 1)).map (gcPoint p0 (gcTangent p0 yaw rnd mu))

/- ### Concrete inputs used by witnesses and counterexamples -/

/-- No key pressed. -/
def inpNone : Input := ⟨false, false, false, false, false⟩

/-- Only `W` pressed: forward input `1`, strafe `0`. -/
def inpW : Input := ⟨true, false, false, false, false⟩

end

/-- C2: `stereoToSphere` computes exactly the spec's stereographic formula,
and the image lies exactly on the unit sphere (squared norm `1`). -/
theorem stereoToSphere_on_sphere (u v : ℝ) :
    stereoToSphere ⟨u, v⟩ =
      ⟨2 / (u * u + v * v + 1) * u, 2 / (u * u + v * v + 1) * v,
        (u * u + v * v - 1) / (u * u + v * v + 1)⟩ ∧
    lengthSq3 (stereoToSphere ⟨u, v⟩) = 1 := by
  have hd : u * u + v * v + 1 ≠ 0 := by nlinarith [sq_nonneg u, sq_nonneg v]
  constructor
  · rfl
  · show 2 / (u * u + v * v + 1) * u * (2 / (u * u + v * v + 1) * u) +
        2 / (u * u + v * v + 1) * v * (2 / (u * u + v * v + 1) * v) +
        (u * u + v * v - 1) / (u * u + v * v + 1) *
          ((u * u + v * v - 1) / (u * u + v * v + 1)) = 1
    field_simp
    ring

/-- C6: `sphereLambda` always lies in `(0, 2]` and equals `2` exactly at the
chart origin. -/
theorem sphereLambda_range (u v : ℝ) :
    0 < sphereLambda ⟨u, v⟩ ∧ sphereLambda ⟨u, v⟩ ≤ 2 ∧
    (sphereLambda ⟨u, v⟩ = 2 ↔ u = 0 ∧ v = 0) := by
  have hd : (0:ℝ) < 1 + (u * u + v * v) := by nlinarith [sq_nonneg u, sq_nonneg v]
  refine ⟨div_pos (by norm_num) hd, ?_, ?_⟩
  · rw [show sphereLambda ⟨u, v⟩ = 2 / (1 + (u * u + v * v)) from rfl,
      div_le_iff₀ hd]
    nlinarith [sq_nonneg u, sq_nonneg v]
  · rw [show sphereLambda ⟨u, v⟩ = 2 / (1 + (u * u + v * v)) from rfl]
    constructor
    · intro h
      have h2 : 2 = 2 * (1 + (u * u + v * v)) := by
        rw [div_eq_iff (ne_of_gt hd)] at h
        linarith [h]
      constructor <;> nlinarith [sq_nonneg u, sq_nonneg v]
    · rintro ⟨hu, hv⟩
      rw [hu, hv]
      norm_num

/- ### C1: magnitude of the curved-mode chart displacement -/

lemma rotateByYaw_lengthSq (yaw : ℝ) (w : Vec2) :
    lengthSq2 (rotateByYaw yaw w) = lengthSq2 w := by
  show (Real.cos yaw * w.x - Real.sin yaw * w.y) *
      (Real.cos yaw * w.x - Real.sin yaw * w.y) +
      (Real.sin yaw * w.x + Real.cos yaw * w.y) *
      (Real.sin yaw * w.x + Real.cos yaw * w.y) = w.x * w.x + w.y * w.y
  have h := Real.sin_sq_add_cos_sq yaw
  nlinarith [h]

lemma scale2_lengthSq (a : ℝ) (w : Vec2) :
    lengthSq2 (scale2 a w) = a ^ 2 * lengthSq2 w := by
  show a * w.x * (a * w.x) + a * w.y * (a * w.y) = a ^ 2 * (w.x * w.x + w.y * w.y)
  ring

lemma chartDisp_magnitude (lam yaw : ℝ) (w : Vec2) (dt : ℝ)
    (hw : 0 < lengthSq2 w) (hdt : 0 ≤ dt) :
    Real.sqrt (lengthSq2 (chartDisp lam yaw w dt)) =
      speed / max lam 1e-4 * dt := by
  have h1 : lengthSq2 (normalize2 w) = 1 := normalize2_lengthSq w (ne_of_gt hw)
  have h2 : lengthSq2 (rotateByYaw yaw (normalize2 w)) = 1 := by
    rw [rotateByYaw_lengthSq]; exact h1
  have h3 : lengthSq2 (normalize2 (rotateByYaw yaw (normalize2 w))) = 1 :=
    normalize2_lengthSq _ (by rw [h2]; exact one_ne_zero)
  have hk : 0 ≤ speed / max lam 1e-4 * dt := by
    apply mul_nonneg _ hdt
    apply div_nonneg
    · norm_num [speed]
    · exact le_trans (by norm_num) (le_max_right lam 1e-4)
  rw [chartDisp, if_pos hw, scale2_lengthSq, h3, mul_one, Real.sqrt_sq hk]

/-- C1: on every curved-mode step with a non-zero desired-direction input
(and non-negative frame time), the displacement added to the chart position
is `chartDisp` evaluated at the pre-step chart position, and its Euclidean
magnitude is exactly `(speed / max(λ, 1e-4)) · Δt` with `λ` the active
manifold's metric factor at the pre-step chart position and `Δt` the clamped
elapsed time. -/
theorem curved_step_displacement_magnitude (manifold : String) (camDir : Vec3)
    (i : Input) (dtRaw : ℝ) (st : PlayerState)
    (hw : 0 < lengthSq2 (wantOf i)) (hdt : 0 ≤ dtRaw) :
    ((curvedStep manifold camDir i dtRaw st).1).chart =
      ⟨st.chart.x + (chartDisp (lamOf manifold st.chart)
          (atan2 camDir.x camDir.z) (wantOf i) (min dtRaw (1 / 30))).x,
       st.chart.y + (chartDisp (lamOf manifold st.chart)
          (atan2 camDir.x camDir.z) (wantOf i) (min dtRaw (1 / 30))).y⟩ ∧
    Real.sqrt (lengthSq2 (chartDisp (lamOf manifold st.chart)
        (atan2 camDir.x camDir.z) (wantOf i) (min dtRaw (1 / 30)))) =
      speed / max (lamOf manifold st.chart) 1e-4 * min dtRaw (1 / 30) := by
  refine ⟨rfl, ?_⟩
  exact chartDisp_magnitude _ _ _ _ hw (le_min hdt (by norm_num))

/-- Witness for C1 at a concrete input: forward key pressed, camera looking
along `+z`, sphere manifold, `dtRaw = 0.1`, from the initial player state. -/
theorem curved_step_displacement_magnitude_witness :
    0 < lengthSq2 (wantOf inpW) ∧ (0:ℝ) ≤ 0.1 ∧
    (((curvedStep "sphere" ⟨0, 0, 1⟩ inpW 0.1 initPlayer).1).chart =
      ⟨initPlayer.chart.x + (chartDisp (lamOf "sphere" initPlayer.chart)
          (atan2 (Vec3.mk 0 0 1).x (Vec3.mk 0 0 1).z) (wantOf inpW)
          (min 0.1 (1 / 30))).x,
       initPlayer.chart.y + (chartDisp (lamOf "sphere" initPlayer.chart)
          (atan2 (Vec3.mk 0 0 1).x (Vec3.mk 0 0 1).z) (wantOf inpW)
          (min 0.1 (1 / 30))).y⟩ ∧
    Real.sqrt (lengthSq2 (chartDisp (lamOf "sphere" initPlayer.chart)
        (atan2 (Vec3.mk 0 0 1).x (Vec3.mk 0 0 1).z) (wantOf inpW)
        (min 0.1 (1 / 30)))) =
      speed / max (lamOf "sphere" initPlayer.chart) 1e-4 * min 0.1 (1 / 30)) :=
  ⟨by norm_num [wantOf, strafeOf, forwardOf, axisVal, inpW, lengthSq2],
   by norm_num,
   curved_step_displacement_magnitude "sphere" ⟨0, 0, 1⟩ inpW 0.1 initPlayer
     (by norm_num [wantOf, strafeOf, forwardOf, axisVal, inpW, lengthSq2])
     (by norm_num)⟩

/- ### C8: cross-mode frame separation -/

/-- C8: a curved-mode step never modifies the flat-mode velocity state or the
grounded flag, and a flat-mode step never modifies the chart position. -/
theorem mode_frame_separation (manifold : String) (camDir : Vec3) (i : Input)
    (dtRaw : ℝ) (st : PlayerState) :
    ((curvedStep manifold camDir i dtRaw st).1).vel = st.vel ∧
    ((curvedStep manifold camDir i dtRaw st).1).onGround = st.onGround ∧
    ((flatStep camDir i dtRaw st).1).chart = st.chart := by
  refine ⟨rfl, rfl, ?_⟩
  simp only [flatStep]
  split <;> rfl

/- ### C9: flat-mode ground invariant -/

/-- C9: after every flat-mode step the `y` coordinate is at least `1`, and
whenever integration would place `y` below `1` the step ends with `y`
exactly `1`, vertical velocity exactly `0`, and the grounded flag set. -/
theorem flat_step_ground_invariant (camDir : Vec3) (i : Input) (dtRaw : ℝ)
    (st : PlayerState) :
    1 ≤ ((flatStep camDir i dtRaw st).1).pos.y ∧
    ((flatIntegrate st.pos (flatVel camDir i (min dtRaw (1 / 30)) st).1
        (min dtRaw (1 / 30))).y < 1 →
      ((flatStep camDir i dtRaw st).1).pos.y = 1 ∧
      ((flatStep camDir i dtRaw st).1).vel.y = 0 ∧
      ((flatStep camDir i dtRaw st).1).onGround = true) := by
  constructor
  · simp only [flatStep]
    split
    · exact le_refl 1
    · next hc => exact le_of_not_lt hc
  · intro h
    simp only [flatStep]
    split
    · exact ⟨rfl, rfl, rfl⟩
    · next hc => exact absurd h hc

/-- Witness for C9: with no input, camera along `+z`, `dtRaw = 1/30` and the
player resting exactly at `y = 1`, gravity integration would sink below the
ground plane, and the step clamps back to `y = 1`. -/
theorem flat_step_ground_invariant_witness :
    (flatIntegrate (PlayerState.mk ⟨0, 1, 0⟩ ⟨0, 0, 0⟩ ⟨0, 0⟩ true).pos
        (flatVel ⟨0, 0, 1⟩ inpNone (min (1 / 30) (1 / 30))
          (PlayerState.mk ⟨0, 1, 0⟩ ⟨0, 0, 0⟩ ⟨0, 0⟩ true)).1
        (min (1 / 30) (1 / 30))).y < 1 ∧
    (((flatStep ⟨0, 0, 1⟩ inpNone (1 / 30)
        (PlayerState.mk ⟨0, 1, 0⟩ ⟨0, 0, 0⟩ ⟨0, 0⟩ true)).1).pos.y = 1 ∧
     ((flatStep ⟨0, 0, 1⟩ inpNone (1 / 30)
        (PlayerState.mk ⟨0, 1, 0⟩ ⟨0, 0, 0⟩ ⟨0, 0⟩ true)).1).vel.y = 0 ∧
     ((flatStep ⟨0, 0, 1⟩ inpNone (1 / 30)
        (PlayerState.mk ⟨0, 1, 0⟩ ⟨0, 0, 0⟩ ⟨0, 0⟩ true)).1).onGround = true) := by
  have h : (flatIntegrate (PlayerState.mk ⟨0, 1, 0⟩ ⟨0, 0, 0⟩ ⟨0, 0⟩ true).pos
      (flatVel ⟨0, 0, 1⟩ inpNone (min (1 / 30) (1 / 30))
        (PlayerState.mk ⟨0, 1, 0⟩ ⟨0, 0, 0⟩ ⟨0, 0⟩ true)).1
      (min (1 / 30) (1 / 30))).y < 1 := by
    norm_num [flatIntegrate, flatVel, flatMove, flatDir, normalize3,
      lengthSq3, add3, smul3, neg3, cross3, rightOf, forwardOf, strafeOf,
      axisVal, inpNone, gravity, speed, jumpSpeed, Real.sqrt_one]
  exact ⟨h,
    (flat_step_ground_invariant ⟨0, 0, 1⟩ inpNone (1 / 30)
      (PlayerState.mk ⟨0, 1, 0⟩ ⟨0, 0, 0⟩ ⟨0, 0⟩ true)).2 h⟩

/- ### C10: unknown-manifold default -/

/-- C10: in curved mode with a manifold tag that is neither `"sphere"` nor
`"saddle"`, the step uses metric factor `1` and outputs the embedded point
`(0,0,0)` regardless of the chart position, while the chart position still
advances by the computed chart displacement. -/
theorem unknown_manifold_default (m : String) (camDir : Vec3) (i : Input)
    (dtRaw : ℝ) (st : PlayerState) (h1 : m ≠ "sphere") (h2 : m ≠ "saddle") :
    lamOf m st.chart = 1 ∧
    ((curvedStep m camDir i dtRaw st).2).pos = ⟨0, 0, 0⟩ ∧
    ((curvedStep m camDir i dtRaw st).1).pos = ⟨0, 0, 0⟩ ∧
    ((curvedStep m camDir i dtRaw st).1).chart =
      ⟨st.chart.x + (chartDisp 1 (atan2 camDir.x camDir.z) (wantOf i)
          (min dtRaw (1 / 30))).x,
       st.chart.y + (chartDisp 1 (atan2 camDir.x camDir.z) (wantOf i)
          (min dtRaw (1 / 30))).y⟩ := by
  have hl : lamOf m st.chart = 1 := by rw [lamOf, if_neg h1, if_neg h2]
  have he : ∀ c, embedOf m c = ⟨0, 0, 0⟩ := fun c => by
    rw [embedOf, if_neg h1, if_neg h2]
  refine ⟨hl, ?_, ?_, ?_⟩
  · simp only [curvedStep, he]
  · simp only [curvedStep, he]
  · simp only [curvedStep, hl]

/-- Witness for C10 at the concrete unknown tag `"torus"`. -/
theorem unknown_manifold_default_witness :
    "torus" ≠ "sphere" ∧ "torus" ≠ "saddle" ∧
    (lamOf "torus" initPlayer.chart = 1 ∧
    ((curvedStep "torus" ⟨0, 0, 1⟩ inpW 0.1 initPlayer).2).pos = ⟨0, 0, 0⟩ ∧
    ((curvedStep "torus" ⟨0, 0, 1⟩ inpW 0.1 initPlayer).1).pos = ⟨0, 0, 0⟩ ∧
    ((curvedStep "torus" ⟨0, 0, 1⟩ inpW 0.1 initPlayer).1).chart =
      ⟨initPlayer.chart.x + (chartDisp 1
          (atan2 (Vec3.mk 0 0 1).x (Vec3.mk 0 0 1).z) (wantOf inpW)
          (min 0.1 (1 / 30))).x,
       initPlayer.chart.y + (chartDisp 1
          (atan2 (Vec3.mk 0 0 1).x (Vec3.mk 0 0 1).z) (wantOf inpW)
          (min 0.1 (1 / 30))).y⟩) :=
  ⟨by decide, by decide,
   unknown_manifold_default "torus" ⟨0, 0, 1⟩ inpW 0.1 initPlayer
     (by decide) (by decide)⟩

/- ### C5: zero-input step -/

/-- C5 counterexample: with zero desired-direction input, a flat-mode step
from the initial position `(0, 1.2, 4)` does NOT leave the Cartesian position
unchanged — gravity integration lowers `y`. -/
theorem zero_input_flat_position_changes :
    lengthSq2 (wantOf inpNone) = 0 ∧
    ((flatStep ⟨0, 0, 1⟩ inpNone (1 / 30) initPlayer).1).pos ≠
      initPlayer.pos := by
  constructor
  · norm_num [wantOf, strafeOf, forwardOf, axisVal, inpNone, lengthSq2]
  · intro h
    have hy : ((flatStep ⟨0, 0, 1⟩ inpNone (1 / 30) initPlayer).1).pos.y =
        initPlayer.pos.y := by rw [h]
    norm_num [flatStep, flatIntegrate, flatVel, flatMove, flatDir,
      normalize3, lengthSq3, add3, smul3, neg3, cross3, rightOf, forwardOf,
      strafeOf, axisVal, inpNone, gravity, speed, jumpSpeed, Real.sqrt_one,
      initPlayer, min_self] at hy

/-- C5 (amended): with zero desired-direction input a curved-mode step leaves
the chart position unchanged and recomputes only the yaw from the camera
forward vector; a flat-mode step leaves the horizontal coordinates `x`, `z`
unchanged (while gravity still integrates the vertical coordinate). -/
theorem zero_input_step_effects (manifold : String) (camDir : Vec3)
    (i : Input) (dtRaw : ℝ) (st : PlayerState)
    (hw : lengthSq2 (wantOf i) = 0) :
    ((curvedStep manifold camDir i dtRaw st).1).chart = st.chart ∧
    ((curvedStep manifold camDir i dtRaw st).2).yaw =
      atan2 camDir.x camDir.z ∧
    ((flatStep camDir i dtRaw st).1).pos.x = st.pos.x ∧
    ((flatStep camDir i dtRaw st).1).pos.z = st.pos.z := by
  have hnw : ¬ lengthSq2 (wantOf i) > 0 := by rw [hw]; exact lt_irrefl 0
  have hw' : strafeOf i * strafeOf i + forwardOf i * forwardOf i = 0 := hw
  have hs : strafeOf i = 0 := by
    have h1 : strafeOf i * strafeOf i = 0 := by
      have h2 := mul_self_nonneg (strafeOf i)
      have h3 := mul_self_nonneg (forwardOf i)
      linarith
    exact mul_self_eq_zero.mp h1
  have hf : forwardOf i = 0 := by
    have h1 : forwardOf i * forwardOf i = 0 := by
      have h2 := mul_self_nonneg (strafeOf i)
      have h3 := mul_self_nonneg (forwardOf i)
      linarith
    exact mul_self_eq_zero.mp h1
  have hmv : flatMove camDir i = ⟨0, 0, 0⟩ := by
    norm_num [flatMove, hs, hf, smul3, add3, lengthSq3]
  have hvx : ∀ dt, (flatVel camDir i dt st).1.x = 0 := by
    intro dt
    simp only [flatVel, hmv]
    split <;> rfl
  have hvz : ∀ dt, (flatVel camDir i dt st).1.z = 0 := by
    intro dt
    simp only [flatVel, hmv]
    split <;> rfl
  refine ⟨?_, rfl, ?_, ?_⟩
  · simp only [curvedStep, chartDisp, if_neg hnw]
    ext <;> simp
  · simp only [flatStep]
    split <;> simp [flatIntegrate, hvx]
  · simp only [flatStep]
    split <;> simp [flatIntegrate, hvz]

/-- Witness for C5's amended theorem at a concrete zero input. -/
theorem zero_input_step_effects_witness :
    lengthSq2 (wantOf inpNone) = 0 ∧
    (((curvedStep "sphere" ⟨0, 0, 1⟩ inpNone (1 / 30) initPlayer).1).chart =
      initPlayer.chart ∧
    ((curvedStep "sphere" ⟨0, 0, 1⟩ inpNone (1 / 30) initPlayer).2).yaw =
      atan2 (Vec3.mk 0 0 1).x (Vec3.mk 0 0 1).z ∧
    ((flatStep ⟨0, 0, 1⟩ inpNone (1 / 30) initPlayer).1).pos.x =
      initPlayer.pos.x ∧
    ((flatStep ⟨0, 0, 1⟩ inpNone (1 / 30) initPlayer).1).pos.z =
      initPlayer.pos.z) :=
  ⟨by norm_num [wantOf, strafeOf, forwardOf, axisVal, inpNone, lengthSq2],
   zero_input_step_effects "sphere" ⟨0, 0, 1⟩ inpNone (1 / 30) initPlayer
     (by norm_num [wantOf, strafeOf, forwardOf, axisVal, inpNone, lengthSq2])⟩

/- ### C3: mode/manifold transitions and the position reset -/

/-- C3 counterexample: switch to curved mode, take one forward step (the chart
moves to `(0, 7/150)`), then switch manifolds; the chart position is NOT
re-initialized to the origin by the transition. -/
theorem transition_no_reset_counterexample :
    ((setManifoldEv "saddle" 2 ((appFrame ⟨0, 0, 1⟩ inpW 0.1
        (setModeEv "riemann" 1 (mountApp 0))).1)).player).chart ≠
      ⟨0, 0⟩ := by
  intro h
  have hy := congrArg Vec2.y h
  have hne : ("riemann" : String) ≠ "euclid" := by decide
  norm_num [setManifoldEv, setModeEv, appFrame, mountApp, playerStep,
    curvedStep, chartDisp, lamOf, sphereLambda, wantOf, strafeOf, forwardOf,
    axisVal, inpW, lengthSq2, normalize2, rotateByYaw, scale2, atan2,
    Real.arctan_zero, Real.sqrt_one, Real.sin_zero, Real.cos_zero,
    initPlayer, min_def, max_def, speed, hne] at hy

/-- C3 (amended): mode/manifold transitions are immediate and refresh only the
transition-effect timestamp; they carry the player state (chart and Cartesian
position included) over unchanged.  The reset to the chart origin and the
initial Cartesian position happens once, at mount. -/
theorem transition_keeps_player_state (s : AppState) (m : String)
    (now t0 : ℝ) :
    (setModeEv m now s).player = s.player ∧
    (setManifoldEv m now s).player = s.player ∧
    (setModeEv m now s).transitionTS = now ∧
    (setManifoldEv m now s).transitionTS = now ∧
    (mountApp t0).player.chart = ⟨0, 0⟩ ∧
    (mountApp t0).player.pos = ⟨0, 1.2, 4⟩ :=
  ⟨rfl, rfl, rfl, rfl, rfl, rfl⟩

/- ### C4: the concrete sphere scenario -/

/-- C4 counterexample: in the claimed scenario (`dtRaw = 0.1`, forward input,
yaw `0`, sphere) the stepper clamps `dt` to `1/30`, so the new chart `y` is
`7/150 ≈ 0.0467`, not `0.14`; and even at chart `(0, 0.14)` the embedded
point's `y` is `≈ 0.275`, more than `0.1` away from the claimed `0.139`. -/
theorem sphere_scenario_counterexample :
    ((curvedStep "sphere" ⟨0, 0, 1⟩ inpW 0.1 initPlayer).1).chart.y ≠ 0.14 ∧
    |(stereoToSphere ⟨0, 0.14⟩).y - 0.139| > 0.1 := by
  constructor
  · have hy : ((curvedStep "sphere" ⟨0, 0, 1⟩ inpW 0.1 initPlayer).1).chart.y =
        7 / 150 := by
      norm_num [curvedStep, chartDisp, lamOf, sphereLambda, wantOf, strafeOf,
        forwardOf, axisVal, inpW, lengthSq2, normalize2, rotateByYaw, scale2,
        atan2, Real.arctan_zero, Real.sqrt_one, Real.sin_zero, Real.cos_zero,
        initPlayer, min_def, max_def, speed]
    rw [hy]
    norm_num
  · have hy : (stereoToSphere ⟨0, 0.14⟩).y = 700 / 2549 := by
      norm_num [stereoToSphere]
    rw [hy, abs_of_pos (by norm_num)]
    norm_num

/-- C4 (amended): in curved mode on the sphere, from chart `(0,0)` with
forward input `1`, strafe `0`, yaw `0`, `dtRaw = 0.1` (clamped by the stepper
to `1/30`) and speed `2.8`, one step computes `λ = 2`, chart displacement
`(0, (2.8/2)·(1/30)) = (0, 7/150)`, and the output embedded point equals
`stereoToSphere (0, 7/150) = (0, 2100/22549, -22451/22549)
≈ (0, 0.093, -0.996)`. -/
theorem sphere_scenario_amended :
    lamOf "sphere" ⟨0, 0⟩ = 2 ∧
    ((curvedStep "sphere" ⟨0, 0, 1⟩ inpW 0.1 initPlayer).1).chart =
      ⟨0, 7 / 150⟩ ∧
    ((curvedStep "sphere" ⟨0, 0, 1⟩ inpW 0.1 initPlayer).2).pos =
      stereoToSphere ⟨0, 7 / 150⟩ ∧
    stereoToSphere ⟨0, 7 / 150⟩ = ⟨0, 2100 / 22549, -(22451 / 22549)⟩ := by
  refine ⟨by norm_num [lamOf, sphereLambda], ?_, ?_, ?_⟩
  · ext <;>
      norm_num [curvedStep, chartDisp, lamOf, sphereLambda, wantOf, strafeOf,
        forwardOf, axisVal, inpW, lengthSq2, normalize2, rotateByYaw, scale2,
        atan2, Real.arctan_zero, Real.sqrt_one, Real.sin_zero, Real.cos_zero,
        initPlayer, min_def, max_def, speed]
  · ext <;>
      norm_num [curvedStep, chartDisp, lamOf, sphereLambda, wantOf, strafeOf,
        forwardOf, axisVal, inpW, lengthSq2, normalize2, rotateByYaw, scale2,
        atan2, Real.arctan_zero, Real.sqrt_one, Real.sin_zero, Real.cos_zero,
        initPlayer, min_def, max_def, speed, embedOf, stereoToSphere]
  · ext <;> norm_num [stereoToSphere]

/- ### C7: geodesic sampler points stay on the unit sphere -/

lemma tangentProj_orthogonal (p0 d : Vec3) (hp : lengthSq3 p0 = 1) :
    dot3 p0 (tangentProj p0 d) = 0 := by
  have hp' : p0.x * p0.x + p0.y * p0.y + p0.z * p0.z = 1 := hp
  simp only [tangentProj, sub3, smul3, dot3]
  linear_combination (-(d.x * p0.x + d.y * p0.y + d.z * p0.z)) * hp'

lemma normalize3_dot (p v : Vec3) (h : dot3 p v = 0) :
    dot3 p (normalize3 v) = 0 := by
  simp only [normalize3, dot3] at *
  rw [← mul_div_assoc, ← mul_div_assoc, ← mul_div_assoc, div_add_div_same,
    div_add_div_same, h, zero_div]

lemma gcPoint_lengthSq (p0 v : Vec3) (i : ℕ) (hp : lengthSq3 p0 = 1)
    (hv : lengthSq3 v = 1) (ho : dot3 p0 v = 0) :
    lengthSq3 (gcPoint p0 v i) = 1 := by
  have hbase : lengthSq3 (add3
      (smul3 (Real.cos (((i : ℝ) / (gcN : ℝ) - 0.5) * gcArc)) p0)
      (smul3 (Real.sin (((i : ℝ) / (gcN : ℝ) - 0.5) * gcArc)) v)) = 1 := by
    set s := ((i : ℝ) / (gcN : ℝ) - 0.5) * gcArc with hs
    have hsc := Real.sin_sq_add_cos_sq s
    simp only [lengthSq3, add3, smul3, dot3] at *
    linear_combination (Real.cos s) ^ 2 * hp + (Real.sin s) ^ 2 * hv +
      (2 * Real.cos s * Real.sin s) * ho + hsc
  show lengthSq3 (normalize3 _) = 1
  exact normalize3_lengthSq _ (by rw [hbase]; exact one_ne_zero)

/-- C7: for every unit-norm base point `p0` and heading, every one of the
`N+1` points sampled on each of the three great-circle arcs (the tangent
projection being non-degenerate, as the sampler checks) has norm `1` within
tolerance `1e-6` — in fact exactly `1`. -/
theorem geodesic_points_unit_norm (p0 : Vec3) (yaw off : ℝ) (rnd : Vec3)
    (mu : ℝ) (q : Vec3) (hp : lengthSq3 p0 = 1)
    (_hoff : off ∈ geodesicOffsets)
    (hnd : ¬ lengthSq3 (tangentProj p0 (dirFlat (yaw + off))) < 1e-6)
    (hq : q ∈ makeGreatCircle p0 (yaw + off) rnd mu) :
    |Real.sqrt (lengthSq3 q) - 1| ≤ 1e-6 := by
  obtain ⟨i, _, rfl⟩ := List.mem_map.mp hq
  have hv : gcTangent p0 (yaw + off) rnd mu =
      normalize3 (tangentProj p0 (dirFlat (yaw + off))) := by
    rw [gcTangent, if_neg hnd]
  have htne : lengthSq3 (tangentProj p0 (dirFlat (yaw + off))) ≠ 0 := by
    intro h0
    exact hnd (by rw [h0]; norm_num)
  have hv1 : lengthSq3 (gcTangent p0 (yaw + off) rnd mu) = 1 := by
    rw [hv]; exact normalize3_lengthSq _ htne
  have ho : dot3 p0 (gcTangent p0 (yaw + off) rnd mu) = 0 := by
    rw [hv]; exact normalize3_dot _ _ (tangentProj_orthogonal p0 _ hp)
  have hq1 : lengthSq3 (gcPoint p0 (gcTangent p0 (yaw + off) rnd mu) i) = 1 :=
    gcPoint_lengthSq _ _ i hp hv1 ho
  rw [hq1, Real.sqrt_one]
  norm_num

/-- Witness for C7 at base point `(1,0,0)`, heading `0`, centre arc offset
`0`, and the first sampled point. -/
theorem geodesic_points_unit_norm_witness :
    lengthSq3 ⟨1, 0, 0⟩ = 1 ∧
    (0 : ℝ) ∈ geodesicOffsets ∧
    ¬ lengthSq3 (tangentProj ⟨1, 0, 0⟩ (dirFlat (0 + 0))) < 1e-6 ∧
    gcPoint ⟨1, 0, 0⟩ (gcTangent ⟨1, 0, 0⟩ (0 + 0) ⟨0, 1, 0⟩ 0) 0 ∈
      makeGreatCircle ⟨1, 0, 0⟩ (0 + 0) ⟨0, 1, 0⟩ 0 ∧
    |Real.sqrt (lengthSq3
        (gcPoint ⟨1, 0, 0⟩ (gcTangent ⟨1, 0, 0⟩ (0 + 0) ⟨0, 1, 0⟩ 0) 0)) - 1|
      ≤ 1e-6 := by
  have h1 : lengthSq3 (Vec3.mk 1 0 0) = 1 := by norm_num [lengthSq3]
  have h2 : (0 : ℝ) ∈ geodesicOffsets := by simp [geodesicOffsets]
  have h3 : ¬ lengthSq3 (tangentProj ⟨1, 0, 0⟩ (dirFlat (0 + 0))) < 1e-6 := by
    norm_num [tangentProj, dirFlat, dot3, smul3, sub3, lengthSq3,
      Real.sin_zero, Real.cos_zero]
  have h4 : gcPoint ⟨1, 0, 0⟩ (gcTangent ⟨1, 0, 0⟩ (0 + 0) ⟨0, 1, 0⟩ 0) 0 ∈
      makeGreatCircle ⟨1, 0, 0⟩ (0 + 0) ⟨0, 1, 0⟩ 0 := by
    rw [makeGreatCircle]
    exact List.mem_map_of_mem _ (List.mem_range.mpr (by norm_num))
  exact ⟨h1, h2, h3, h4,
    geodesic_points_unit_norm ⟨1, 0, 0⟩ 0 0 ⟨0, 1, 0⟩ 0 _ h1 h2 h3 h4⟩

end ManifoldDrift
